import Mathlib

/-!
Verification of the Telegram marketplace-analytics bot (`bot.py`).

The source is a small Python program: per-user conversation histories kept in a
dict, a model-fallback caller iterating a fixed list of model identifiers with a
global cursor, handlers for `/start`, `/reset`, uploaded files and text
messages, and a 4096-character response chunker.  Everything below is a shallow
embedding of that program: external effects (the completion API, the pandas
parsers and renderer) are abstracted as explicit function parameters, state
(the `user_conversations` dict and `current_model_index`) is threaded
explicitly, and exceptions are `Except` values.
-/

/-- A role-tagged conversation record: `{"role": ..., "content": ...}`. -/
structure Msg where
  role : String
  content : String
deriving DecidableEq

/-- `MODELS` from `bot.py`: the prioritized model list. -/
def MODELS : List String :=
  [ "meta-llama/llama-2-70b-chat",
    "meta-llama/llama-3-70b-instruct",
    "mistralai/mistral-7b-instruct",
    "meta-llama/llama-2-13b-chat",
    "nousresearch/nous-hermes-2-mixtral-8x7b-dpo" ]

/-- Initial value of the global `current_model_index` in `bot.py`. -/
def current_model_index : Nat := 0

/-- `SYSTEM_PROMPT` from `bot.py` (the fixed system instruction). -/
def SYSTEM_PROMPT : String := "Ты профессиональный аналитик маркетплейсов с опытом работы с Ozon, Wildberries, Яндекс.Маркет и другими платформами.

Твоя задача анализировать выгрузки данных продавцов и давать конкретные, практические рекомендации.

Когда пользователь предоставляет файлы с данными маркетплейса, следуй этому алгоритму:

1. ПОДТВЕРЖДЕНИЕ ПОЛУЧЕНИЯ
Кратко подтверди, что ты получил файлы, понял какой период они охватывают и какие данные содержат.

2. АНАЛИТИЧЕСКИЙ ОТЧЕТ (формат)

🚀 САММАРИ (Главное за 30 секунд)
- 3-5 ключевых выводов: что было хорошо, что плохо, на что срочно обратить внимание
- Пример: \"Выручка +15%, но прибыль упала из-за логистики. Товар X - хит, товар Y съедает склад\"

💡 КЛЮЧЕВЫЕ РЕКОМЕНДАЦИИ (Приоритизированные)
- 3-5 самых важных действий для выполнения прямо сейчас
- Пример: \"1. Дозаказать товар X (остаток на 5 дней). 2. Поднять цену на товар Z на 10%\"

📊 ДЕТАЛЬНЫЙ РАЗБОР

Финансовые показатели:
- Оборот (Выручка): общая сумма заказов
- Комиссии и расходы: что отдали маркетплейсу
- Чистая прибыль и маржинальность: реальный доход
- Динамика: изменения vs предыдущий период

ABC-анализ товаров:
- Группа A (Локомотивы): Топ-5 товаров, дающих 80% прибыли
- Группа B (Середняки): стабильные товары
- Группа C (Балласт): непроходимые товары, рекомендации по действиям

Анализ запасов:
- Out-of-Stock риски: какие товары закончатся в ближайшее время
- \"Замороженные деньги\": товары с низкой оборачиваемостью

Проблемные зоны:
- Возвраты: % возвратов, какие товары возвращают часто
- \"Красные флаги\": любые аномалии (падение продаж, рост комиссий, штрафы)

3. СТИЛЬ КОММУНИКАЦИИ
- Пиши простым \"человеческим\" языком, как бизнес-партнер
- Объясняй сложные термины просто
- Не бойся плохих новостей - честность важна
- Будь проактивен: замечай возможности и угрозы

4. ДОП. ЗАПРОСЫ
Если пользователь просит что-то типа:
- \"Почему упали продажи по товару X\"
- \"Сравни две рекламные кампании\"
- \"Выгодна ли эта акция\"
- Отвечай конкретно, с расчетами и выводами

Если в данных не хватает информации для полного анализа (например, себестоимость), скажи об этом явно и попроси недостающие данные."

/-- Abstraction of one completion-API call: given the model identifier and the
message list (system instruction + history), either the response text or the
description of the raised exception.  `client.chat.completions.create` together
with `response.choices[0].message.content` in `bot.py`. -/
abbrev AICall := String → List Msg → Except String String

/-- The three ways `call_ai_with_fallback` can end: a `return text, model`
from inside the loop, the `raise Exception(...)` on the last attempt, or the
final `return None, None` line after the loop. -/
inductive FallbackOutcome where
  | success (text : String) (model : String)
  | exhausted (errMsg : String)
  | fallthrough
deriving DecidableEq

/-- The `for attempt in range(len(MODELS))` loop of `call_ai_with_fallback`,
by recursion on the number of remaining iterations (`rem = 0` inside the body
means `attempt == len(MODELS) - 1`).  Returns the list of models attempted (in
order), the outcome, and the final value of `current_model_index`. -/
def fallbackGo (call : AICall) (messages : List Msg) :
    Nat → Nat → List String × FallbackOutcome × Nat
  | 0, cursor => ([], FallbackOutcome.fallthrough, cursor)
  | rem + 1, cursor =>
      let model := MODELS.getD cursor ""
      let messages_with_system := Msg.mk "system" SYSTEM_PROMPT :: messages
      match call model messages_with_system with
      | Except.ok text => ([model], FallbackOutcome.success text model, cursor)
      | Except.error e =>
          let cursor' := (cursor + 1) % MODELS.length
          if rem = 0 then
            ([model],
             FallbackOutcome.exhausted
               ("❌ Все модели недоступны. Последняя ошибка: " ++ e),
             cursor')
          else
            let r := fallbackGo call messages rem cursor'
            (model :: r.1, r.2.1, r.2.2)

/-- `call_ai_with_fallback(messages)` from `bot.py`, with the completion API
abstracted as `call` and the global cursor passed in and returned. -/
def call_ai_with_fallback (call : AICall) (messages : List Msg) (cursor : Nat) :
    List String × FallbackOutcome × Nat :=
  fallbackGo call messages MODELS.length cursor

/-- The `user_conversations` dict: user id → conversation history, `none` when
the key is absent. -/
def UserMap := Nat → Option (List Msg)

/-- Dict assignment `user_conversations[uid] = hist`. -/
def updateMap (m : UserMap) (uid : Nat) (hist : List Msg) : UserMap :=
  fun u => if u = uid then some hist else m u

/-- The mutable global state of the bot: the `user_conversations` dict and the
`current_model_index` cursor. -/
structure BotState where
  conversations : UserMap
  cursor : Nat

/-- The state at process start: empty dict, cursor `current_model_index = 0`. -/
def initialState : BotState :=
  { conversations := fun _ => none, cursor := current_model_index }

/-- Python `range(start, stop, step)` over naturals (`step > 0`; an empty
range otherwise, matching the fact that the source only uses step 4096). -/
def pyRange (stop step start : Nat) : List Nat :=
  if _h : 0 < step ∧ start < stop then
    start :: pyRange stop step (start + step)
  else []
termination_by stop - start
decreasing_by omega

/-- Python slice `s[i:j]` on a list of characters (`0 ≤ i ≤ j`). -/
def pySlice (s : List Char) (i j : Nat) : List Char :=
  (s.drop i).take (j - i)

/-- The reply-sending loop
`for i in range(0, len(assistant_message), 4096): reply(assistant_message[i:i+4096])`
from `handle_file`/`handle_text`, over the reply viewed as its character list. -/
def replyChunks (assistant_message : List Char) : List (List Char) :=
  (pyRange assistant_message.length 4096 0).map
    (fun i => pySlice assistant_message i (i + 4096))

/-- A parsed table, as much of a pandas `DataFrame` as `bot.py` inspects:
`df.columns.tolist()` and the rows (only counted, via `len(df)`). -/
structure DataFrame where
  columns : List String
  rows : List (List String)

/-- The `data_preview` string built in `handle_file` (lines 152–155), with the
external `df.to_string()` rendering passed in as `dump`. -/
def data_preview (filename : String) (df : DataFrame) (dump : String) : String :=
  "Файл: " ++ filename ++ "\n\n" ++
  "Размер: " ++ toString df.rows.length ++ " строк, " ++
    toString df.columns.length ++ " колонок\n\n" ++
  "Колонки: " ++ String.intercalate ", " df.columns ++ "\n\n" ++
  "Данные:\n" ++ dump

/-- `/start` handler: resets the caller's history to `[]` and sends the fixed
greeting.  Returns the new state and the replies sent. -/
def start (uid : Nat) (st : BotState) : BotState × List String :=
  ({ st with conversations := updateMap st.conversations uid [] },
   ["👋 Привет! Я ваш аналитик маркетплейсов.\n\n" ++
    "Я помогу вам разобраться в выгрузках данных с Ozon, Wildberries, Яндекс.Маркета и других платформ.\n\n" ++
    "Просто отправьте мне:\n" ++
    "📁 Excel или CSV файлы с данными маркетплейса\n" ++
    "❓ Или напишите вопрос по данным, которые вы ранее отправили\n\n" ++
    "Я проанализирую всё и дам конкретные рекомендации!"])

/-- `/reset` handler: clears the caller's history and confirms. -/
def reset (uid : Nat) (st : BotState) : BotState × List String :=
  ({ st with conversations := updateMap st.conversations uid [] },
   ["🔄 История диалога очищена. Готов к новому анализу!"])

/-- Lines 189–196 of `handle_text`: ensure the history entry exists, then
append the user record; this is exactly the list `handle_text` hands to
`call_ai_with_fallback`. -/
def handle_text_history (uid : Nat) (user_text : String) (st : BotState) :
    List Msg :=
  let conv1 := if (st.conversations uid).isSome then st.conversations
               else updateMap st.conversations uid []
  (conv1 uid).getD [] ++ [Msg.mk "user" user_text]

/-- `handle_text` from `bot.py`: ensure the entry, append the user record,
call the AI with fallback, and on success append the assistant reply and send
it in 4096-character chunks; on exhaustion the `except` branch replies with the
error text.  The `fallthrough` branch is unreachable (see
`fallback_never_fallthrough`); there Python would append a `None`-content
record and crash into the `except` branch, modelled as an empty-content
record. -/
def handle_text (call : AICall) (uid : Nat) (user_text : String)
    (st : BotState) : BotState × List String :=
  let hist1 := handle_text_history uid user_text st
  let conv2 := updateMap st.conversations uid hist1
  match call_ai_with_fallback call hist1 st.cursor with
  | (_, FallbackOutcome.success assistant_message _, cursor') =>
      ({ conversations := updateMap conv2 uid
           (hist1 ++ [Msg.mk "assistant" assistant_message]),
         cursor := cursor' },
       ["⏳ Ищу ответ..."] ++
         (replyChunks assistant_message.toList).map (fun c => String.mk c))
  | (_, FallbackOutcome.exhausted e, cursor') =>
      ({ conversations := conv2, cursor := cursor' },
       ["⏳ Ищу ответ...",
        "❌ Ошибка: " ++ e ++ "\nПроверьте OPENROUTER_API_KEY в файле .env"])
  | (_, FallbackOutcome.fallthrough, cursor') =>
      ({ conversations := updateMap conv2 uid
           (hist1 ++ [Msg.mk "assistant" ""]),
         cursor := cursor' },
       ["⏳ Ищу ответ...",
        "❌ Ошибка: object of type NoneType has no len()\nПроверьте OPENROUTER_API_KEY в файле .env"])

/-- Python `filename.endswith(suffix)`: the filename's characters end with
the suffix's characters. -/
def pyEndswith (s suffix : String) : Bool :=
  suffix.data.isSuffixOf s.data

/-- `handle_file` from `bot.py`: ensure the entry, dispatch on the filename
suffix (`.xlsx`/`.xls` → `read_excel`, `.csv` → `read_csv`, otherwise reply
that only Excel and CSV are supported and return), build `data_preview`,
append the user record, call the AI with fallback, and on success append and
chunk the reply.  Parser exceptions and model exhaustion are caught by the
handler's `except`, which replies with the error description.  The
`fallthrough` branch is unreachable (see `fallback_never_fallthrough`). -/
def handle_file (call : AICall)
    (read_excel read_csv : List Nat → Except String DataFrame)
    (dfToString : DataFrame → String)
    (uid : Nat) (filename : String) (file_bytes : List Nat)
    (st : BotState) : BotState × List String :=
  let conv1 := if (st.conversations uid).isSome then st.conversations
               else updateMap st.conversations uid []
  let parsed : Option (Except String DataFrame) :=
    if pyEndswith filename ".xlsx" || pyEndswith filename ".xls" then
      some (read_excel file_bytes)
    else if pyEndswith filename ".csv" then
      some (read_csv file_bytes)
    else none
  match parsed with
  | none =>
      ({ conversations := conv1, cursor := st.cursor },
       ["❌ Поддерживаются только файлы Excel (.xlsx, .xls) и CSV"])
  | some (Except.error e) =>
      ({ conversations := conv1, cursor := st.cursor },
       ["❌ Ошибка при обработке файла: " ++ e])
  | some (Except.ok df) =>
      let preview := data_preview filename df (dfToString df)
      let hist1 := (conv1 uid).getD [] ++
        [Msg.mk "user" ("Вот мои данные с маркетплейса:\n\n" ++ preview)]
      let conv2 := updateMap conv1 uid hist1
      match call_ai_with_fallback call hist1 st.cursor with
      | (_, FallbackOutcome.success assistant_message _, cursor') =>
          ({ conversations := updateMap conv2 uid
               (hist1 ++ [Msg.mk "assistant" assistant_message]),
             cursor := cursor' },
           ["⏳ Анализирую данные... (это может занять некоторое время)"] ++
             (replyChunks assistant_message.toList).map (fun c => String.mk c))
      | (_, FallbackOutcome.exhausted e, cursor') =>
          ({ conversations := conv2, cursor := cursor' },
           ["⏳ Анализирую данные... (это может занять некоторое время)",
            "❌ Ошибка при обработке файла: " ++ e])
      | (_, FallbackOutcome.fallthrough, cursor') =>
          ({ conversations := updateMap conv2 uid
               (hist1 ++ [Msg.mk "assistant" ""]),
             cursor := cursor' },
           ["⏳ Анализирую данные... (это может занять некоторое время)",
            "❌ Ошибка при обработке файла: object of type NoneType has no len()"])

/-- A sequence of fallback-caller invocations (each with its own oracle and
history), threading the global cursor through: the cursor's trajectory across
any number of calls with any pattern of per-attempt outcomes. -/
def runCalls : List (AICall × List Msg) → Nat → Nat
  | [], cursor => cursor
  | (call, messages) :: rest, cursor =>
      runCalls rest (call_ai_with_fallback call messages cursor).2.2

theorem models_length_pos : 0 < MODELS.length := by decide

/-- Advancing the cursor by one and then `k` more positions (mod `N`) lands on
the model at offset `k + 1`. -/
theorem getD_shift (c k : Nat) :
    MODELS.getD (((c + 1) % MODELS.length + k) % MODELS.length) "" =
      MODELS.getD ((c + (k + 1)) % MODELS.length) "" := by
  have h : ((c + 1) % MODELS.length + k) % MODELS.length =
      (c + (k + 1)) % MODELS.length := by
    rw [Nat.mod_add_mod]
    congr 1
    omega
  rw [h]

/-- If the models at offsets `0..K-1` from cursor `c` fail and the model at
offset `K` succeeds, a run with at least `K+1` iterations of fuel attempts
exactly the models at offsets `0..K`, returns the response with the model at
offset `K`, and leaves the cursor at offset `K`. -/
theorem fallbackGo_success_spec (call : AICall) (messages : List Msg) (t : String) :
    ∀ (K F c : Nat), c < MODELS.length → K + 1 ≤ F →
    (∀ k, k < K → ∃ e, call (MODELS.getD ((c + k) % MODELS.length) "")
        (Msg.mk "system" SYSTEM_PROMPT :: messages) = Except.error e) →
    call (MODELS.getD ((c + K) % MODELS.length) "")
        (Msg.mk "system" SYSTEM_PROMPT :: messages) = Except.ok t →
    fallbackGo call messages F c =
      ((List.range (K + 1)).map (fun k => MODELS.getD ((c + k) % MODELS.length) ""),
       FallbackOutcome.success t (MODELS.getD ((c + K) % MODELS.length) ""),
       (c + K) % MODELS.length) := by
  intro K
  induction K with
  | zero =>
    intro F c hc hF _hfail hsucc
    match F, hF with
    | F' + 1, _ =>
      simp only [Nat.add_zero, Nat.mod_eq_of_lt hc] at hsucc
      simp only [fallbackGo]
      rw [hsucc]
      simp [List.range_succ, Nat.mod_eq_of_lt hc]
  | succ K ih =>
    intro F c hc hF hfail hsucc
    match F, hF with
    | F' + 1, hF =>
      obtain ⟨e0, he0⟩ := hfail 0 (Nat.succ_pos K)
      rw [Nat.add_zero, Nat.mod_eq_of_lt hc] at he0
      have hF' : K + 1 ≤ F' := by omega
      have hc' : (c + 1) % MODELS.length < MODELS.length :=
        Nat.mod_lt _ models_length_pos
      have hfail' : ∀ k, k < K → ∃ e,
          call (MODELS.getD (((c + 1) % MODELS.length + k) % MODELS.length) "")
            (Msg.mk "system" SYSTEM_PROMPT :: messages) = Except.error e := by
        intro k hk
        have h := hfail (k + 1) (by omega)
        rwa [show c + (k + 1) = c + 1 + k by omega, ← Nat.mod_add_mod] at h
      have hsucc' :
          call (MODELS.getD (((c + 1) % MODELS.length + K) % MODELS.length) "")
            (Msg.mk "system" SYSTEM_PROMPT :: messages) = Except.ok t := by
        rwa [show c + (K + 1) = c + 1 + K by omega, ← Nat.mod_add_mod] at hsucc
      have hrec := ih F' ((c + 1) % MODELS.length) hc' hF' hfail' hsucc'
      have hne : F' ≠ 0 := by omega
      have hgo : fallbackGo call messages (F' + 1) c =
          (MODELS.getD c "" ::
             (fallbackGo call messages F' ((c + 1) % MODELS.length)).1,
           (fallbackGo call messages F' ((c + 1) % MODELS.length)).2.1,
           (fallbackGo call messages F' ((c + 1) % MODELS.length)).2.2) := by
        simp only [fallbackGo, he0]
        rw [if_neg hne]
      rw [hgo, hrec]
      rw [getD_shift c K, Nat.mod_add_mod,
        show c + 1 + K = c + (K + 1) from by omega,
        List.range_succ_eq_map (K + 1)]
      simp [Prod.mk.injEq, List.map_cons, List.map_map, Function.comp_def,
        Nat.succ_eq_add_one, Nat.mod_eq_of_lt hc, getD_shift]
      intro a _
      rw [show c + 1 + a = c + (a + 1) from by omega]

/-- If every model fails (with error description `errf model`), a run with
fuel `F ≥ 1` attempts the `F` models at offsets `0..F-1` from the cursor,
raises the aggregate error naming the last attempt's error, and leaves the
cursor advanced `F` positions (mod `N`). -/
theorem fallbackGo_allfail_spec (call : AICall) (messages : List Msg)
    (errf : String → String)
    (hcall : ∀ m, call m (Msg.mk "system" SYSTEM_PROMPT :: messages) =
      Except.error (errf m)) :
    ∀ (F c : Nat), 1 ≤ F → c < MODELS.length →
    fallbackGo call messages F c =
      ((List.range F).map (fun k => MODELS.getD ((c + k) % MODELS.length) ""),
       FallbackOutcome.exhausted ("❌ Все модели недоступны. Последняя ошибка: " ++
         errf (MODELS.getD ((c + (F - 1)) % MODELS.length) "")),
       (c + F) % MODELS.length) := by
  intro F
  induction F with
  | zero => intro c h _; omega
  | succ F' ih =>
    intro c _hF hc
    by_cases hF0 : F' = 0
    · subst hF0
      simp only [fallbackGo, hcall]
      simp [List.range_succ, Nat.mod_eq_of_lt hc]
    · have hgo : fallbackGo call messages (F' + 1) c =
          (MODELS.getD c "" ::
             (fallbackGo call messages F' ((c + 1) % MODELS.length)).1,
           (fallbackGo call messages F' ((c + 1) % MODELS.length)).2.1,
           (fallbackGo call messages F' ((c + 1) % MODELS.length)).2.2) := by
        simp only [fallbackGo, hcall]
        rw [if_neg hF0]
      rw [hgo, ih ((c + 1) % MODELS.length) (by omega)
        (Nat.mod_lt _ models_length_pos)]
      rw [Nat.mod_add_mod, Nat.mod_add_mod,
        show c + 1 + (F' - 1) = c + F' from by omega,
        show c + 1 + F' = c + (F' + 1) from by omega,
        List.range_succ_eq_map F']
      simp [Prod.mk.injEq, List.map_cons, List.map_map, Function.comp_def,
        Nat.succ_eq_add_one, Nat.mod_eq_of_lt hc]
      intro a _
      rw [show c + 1 + a = c + (a + 1) from by omega]

/-- With at least one iteration of fuel, the loop never reaches the
`return None, None` line: every run ends in `success` or `exhausted`. -/
theorem fallbackGo_no_fallthrough (call : AICall) (messages : List Msg) :
    ∀ (F c : Nat), 1 ≤ F →
    (∃ t m, (fallbackGo call messages F c).2.1 = FallbackOutcome.success t m) ∨
    (∃ e, (fallbackGo call messages F c).2.1 = FallbackOutcome.exhausted e) := by
  intro F
  induction F with
  | zero => intro c h; omega
  | succ F' ih =>
    intro c _
    cases hcm : call (MODELS.getD c "")
        (Msg.mk "system" SYSTEM_PROMPT :: messages) with
    | ok t =>
      have hgo : fallbackGo call messages (F' + 1) c =
          ([ MODELS.getD c ""], FallbackOutcome.success t (MODELS.getD c ""), c) := by
        simp only [fallbackGo, hcm]
      rw [hgo]
      exact Or.inl ⟨t, MODELS.getD c "", rfl⟩
    | error e =>
      by_cases hF0 : F' = 0
      · subst hF0
        have hgo : fallbackGo call messages (0 + 1) c =
            ([ MODELS.getD c ""],
             FallbackOutcome.exhausted
               ("❌ Все модели недоступны. Последняя ошибка: " ++ e),
             (c + 1) % MODELS.length) := by
          simp only [fallbackGo, hcm]
          simp only [if_true]
        rw [hgo]
        exact Or.inr ⟨_, rfl⟩
      · have hgo : fallbackGo call messages (F' + 1) c =
            (MODELS.getD c "" ::
               (fallbackGo call messages F' ((c + 1) % MODELS.length)).1,
             (fallbackGo call messages F' ((c + 1) % MODELS.length)).2.1,
             (fallbackGo call messages F' ((c + 1) % MODELS.length)).2.2) := by
          simp only [fallbackGo, hcm]
          rw [if_neg hF0]
        rw [hgo]
        exact ih ((c + 1) % MODELS.length) (by omega)

/-- The cursor returned by the loop stays below the number of models. -/
theorem fallbackGo_cursor_lt (call : AICall) (messages : List Msg) :
    ∀ (F c : Nat), c < MODELS.length →
    (fallbackGo call messages F c).2.2 < MODELS.length := by
  intro F
  induction F with
  | zero => intro c hc; simpa [fallbackGo] using hc
  | succ F' ih =>
    intro c hc
    cases hcm : call (MODELS.getD c "")
        (Msg.mk "system" SYSTEM_PROMPT :: messages) with
    | ok t =>
      have hgo : fallbackGo call messages (F' + 1) c =
          ([ MODELS.getD c ""], FallbackOutcome.success t (MODELS.getD c ""), c) := by
        simp only [fallbackGo, hcm]
      rw [hgo]
      exact hc
    | error e =>
      by_cases hF0 : F' = 0
      · subst hF0
        have hgo : fallbackGo call messages (0 + 1) c =
            ([ MODELS.getD c ""],
             FallbackOutcome.exhausted
               ("❌ Все модели недоступны. Последняя ошибка: " ++ e),
             (c + 1) % MODELS.length) := by
          simp only [fallbackGo, hcm]
          simp only [if_true]
        rw [hgo]
        exact Nat.mod_lt (c + 1) models_length_pos
      · have hgo : fallbackGo call messages (F' + 1) c =
            (MODELS.getD c "" ::
               (fallbackGo call messages F' ((c + 1) % MODELS.length)).1,
             (fallbackGo call messages F' ((c + 1) % MODELS.length)).2.1,
             (fallbackGo call messages F' ((c + 1) % MODELS.length)).2.2) := by
          simp only [fallbackGo, hcm]
          rw [if_neg hF0]
        rw [hgo]
        exact ih ((c + 1) % MODELS.length) (Nat.mod_lt _ models_length_pos)

/-- One unfolding step of the loop. -/
theorem fallbackGo_succ (call : AICall) (messages : List Msg) (F' c : Nat) :
    fallbackGo call messages (F' + 1) c =
      match call (MODELS.getD c "") (Msg.mk "system" SYSTEM_PROMPT :: messages) with
      | Except.ok text =>
          ([ MODELS.getD c ""], FallbackOutcome.success text (MODELS.getD c ""), c)
      | Except.error e =>
          if F' = 0 then
            ([ MODELS.getD c ""],
             FallbackOutcome.exhausted
               ("❌ Все модели недоступны. Последняя ошибка: " ++ e),
             (c + 1) % MODELS.length)
          else
            (MODELS.getD c "" ::
               (fallbackGo call messages F' ((c + 1) % MODELS.length)).1,
             (fallbackGo call messages F' ((c + 1) % MODELS.length)).2.1,
             (fallbackGo call messages F' ((c + 1) % MODELS.length)).2.2) := rfl

/-- The first model a run attempts is the one at the starting cursor. -/
theorem fallbackGo_first_attempt (call : AICall) (messages : List Msg)
    (F c : Nat) (hF : 1 ≤ F) :
    ∃ rest, (fallbackGo call messages F c).1 = MODELS.getD c "" :: rest := by
  match F, hF with
  | F' + 1, _ =>
    cases hcm : call (MODELS.getD c "")
        (Msg.mk "system" SYSTEM_PROMPT :: messages) with
    | ok t =>
      exact ⟨[], by rw [fallbackGo_succ, hcm]⟩
    | error e =>
      by_cases hF0 : F' = 0
      · subst hF0
        exact ⟨[], by rw [fallbackGo_succ, hcm]; rfl⟩
      · exact ⟨(fallbackGo call messages F' ((c + 1) % MODELS.length)).1,
          by rw [fallbackGo_succ, hcm]; simp only [if_neg hF0]⟩

/-- C1 counterexample data: with every model succeeding, a call starting at
cursor 0 with K = 0 failures ends with the cursor still at 0, and the next
call attempts the model at position 0 first — not the model at position
(start + K + 1) mod N = 1, which is a different model. -/
theorem fallback_next_call_counterexample :
    ((call_ai_with_fallback (fun _ _ => Except.ok "ответ") [] 0).2.2 = 0) ∧
    ((call_ai_with_fallback (fun _ _ => Except.ok "ответ") []
        (call_ai_with_fallback (fun _ _ => Except.ok "ответ") [] 0).2.2).1 =
      [ MODELS.getD 0 ""]) ∧
    MODELS.getD 0 "" ≠ MODELS.getD ((0 + 0 + 1) % MODELS.length) "" := by
  refine ⟨rfl, rfl, by decide⟩

/-- C1 (amended): for every conversation history and every run in which the
first K attempted models fail and the (K+1)-th succeeds, the caller attempts
exactly K+1 models in cursor order (wrapping modulo N), returns the successful
response text paired with the model identifier used, the cursor ends at
position (start+K) mod N, and the next call starts at that same position
(start+K) mod N — the cursor is left unchanged on success, so the successful
model is retried first. -/
theorem fallback_success_run (call : AICall) (messages : List Msg)
    (t : String) (K s : Nat)
    (hs : s < MODELS.length) (hK : K < MODELS.length)
    (hfail : ∀ k, k < K → ∃ e, call (MODELS.getD ((s + k) % MODELS.length) "")
        (Msg.mk "system" SYSTEM_PROMPT :: messages) = Except.error e)
    (hsucc : call (MODELS.getD ((s + K) % MODELS.length) "")
        (Msg.mk "system" SYSTEM_PROMPT :: messages) = Except.ok t) :
    (call_ai_with_fallback call messages s).1 =
      (List.range (K + 1)).map
        (fun k => MODELS.getD ((s + k) % MODELS.length) "") ∧
    (call_ai_with_fallback call messages s).2.1 =
      FallbackOutcome.success t (MODELS.getD ((s + K) % MODELS.length) "") ∧
    (call_ai_with_fallback call messages s).2.2 = (s + K) % MODELS.length ∧
    (∀ (call2 : AICall) (messages2 : List Msg), ∃ rest,
      (call_ai_with_fallback call2 messages2
          (call_ai_with_fallback call messages s).2.2).1 =
        MODELS.getD ((s + K) % MODELS.length) "" :: rest) := by
  have h := fallbackGo_success_spec call messages t K MODELS.length s hs
    (by omega) hfail hsucc
  have hmain : call_ai_with_fallback call messages s =
      ((List.range (K + 1)).map
         (fun k => MODELS.getD ((s + k) % MODELS.length) ""),
       FallbackOutcome.success t (MODELS.getD ((s + K) % MODELS.length) ""),
       (s + K) % MODELS.length) := h
  rw [hmain]
  refine ⟨rfl, rfl, rfl, ?_⟩
  intro call2 messages2
  exact fallbackGo_first_attempt call2 messages2 MODELS.length
    ((s + K) % MODELS.length) (by decide)

/-- Closed instance of `fallback_success_run`: the first model fails, the
second succeeds (K = 1, start = 0). -/
theorem fallback_success_run_witness :
    (call_ai_with_fallback
        (fun m _ => if m = MODELS.getD 0 "" then Except.error "недоступна"
                    else Except.ok "готово") [] 0).1 =
      (List.range 2).map (fun k => MODELS.getD ((0 + k) % MODELS.length) "") ∧
    (call_ai_with_fallback
        (fun m _ => if m = MODELS.getD 0 "" then Except.error "недоступна"
                    else Except.ok "готово") [] 0).2.1 =
      FallbackOutcome.success "готово"
        (MODELS.getD ((0 + 1) % MODELS.length) "") ∧
    (call_ai_with_fallback
        (fun m _ => if m = MODELS.getD 0 "" then Except.error "недоступна"
                    else Except.ok "готово") [] 0).2.2 =
      (0 + 1) % MODELS.length ∧
    (∀ (call2 : AICall) (messages2 : List Msg), ∃ rest,
      (call_ai_with_fallback call2 messages2
          (call_ai_with_fallback
            (fun m _ => if m = MODELS.getD 0 "" then Except.error "недоступна"
                        else Except.ok "готово") [] 0).2.2).1 =
        MODELS.getD ((0 + 1) % MODELS.length) "" :: rest) :=
  fallback_success_run
    (fun m _ => if m = MODELS.getD 0 "" then Except.error "недоступна"
                else Except.ok "готово") [] "готово" 1 0
    (by decide) (by decide)
    (fun k hk => by
      interval_cases k
      exact ⟨"недоступна", by rfl⟩)
    (by rfl)

/-- C2: for every starting cursor position (in range), if every configured
model fails when attempted, the fallback caller fails after exactly N attempts
— each distinct model tried at most once — with an aggregate error whose
message includes (here: ends with) the description of the last underlying
error. -/
theorem fallback_allfail_run (call : AICall) (messages : List Msg)
    (errf : String → String) (s : Nat) (hs : s < MODELS.length)
    (hcall : ∀ m, call m (Msg.mk "system" SYSTEM_PROMPT :: messages) =
      Except.error (errf m)) :
    (call_ai_with_fallback call messages s).1.length = MODELS.length ∧
    (call_ai_with_fallback call messages s).1.Nodup ∧
    (call_ai_with_fallback call messages s).2.1 =
      FallbackOutcome.exhausted ("❌ Все модели недоступны. Последняя ошибка: " ++
        errf (MODELS.getD ((s + (MODELS.length - 1)) % MODELS.length) "")) := by
  have h := fallbackGo_allfail_spec call messages errf hcall MODELS.length s
    (by decide) hs
  have hmain : call_ai_with_fallback call messages s =
      ((List.range MODELS.length).map
         (fun k => MODELS.getD ((s + k) % MODELS.length) ""),
       FallbackOutcome.exhausted ("❌ Все модели недоступны. Последняя ошибка: " ++
         errf (MODELS.getD ((s + (MODELS.length - 1)) % MODELS.length) "")),
       (s + MODELS.length) % MODELS.length) := h
  rw [hmain]
  refine ⟨by simp, ?_, rfl⟩
  show ((List.range MODELS.length).map
      (fun k => MODELS.getD ((s + k) % MODELS.length) "")).Nodup
  have hs5 : s < 5 := by
    have hlen : MODELS.length = 5 := by decide
    omega
  interval_cases s <;> decide

/-- Closed instance of `fallback_allfail_run` at starting cursor 0, with
every model failing with an error naming the model. -/
theorem fallback_allfail_run_witness :
    (call_ai_with_fallback (fun m _ => Except.error ("нет сети: " ++ m)) [] 0).1.length =
      MODELS.length ∧
    (call_ai_with_fallback (fun m _ => Except.error ("нет сети: " ++ m)) [] 0).1.Nodup ∧
    (call_ai_with_fallback (fun m _ => Except.error ("нет сети: " ++ m)) [] 0).2.1 =
      FallbackOutcome.exhausted ("❌ Все модели недоступны. Последняя ошибка: " ++
        ("нет сети: " ++
          MODELS.getD ((0 + (MODELS.length - 1)) % MODELS.length) "")) :=
  fallback_allfail_run (fun m _ => Except.error ("нет сети: " ++ m)) []
    (fun m => "нет сети: " ++ m) 0 (by decide) (fun _ => rfl)

/-- C8: the model cursor starts at 0 and, across any sequence of
fallback-caller invocations with any pattern of per-attempt successes and
failures, remains a valid index into the model list. -/
theorem cursor_always_in_range (seq : List (AICall × List Msg)) (c : Nat)
    (hc : c < MODELS.length) :
    current_model_index = 0 ∧ runCalls seq c < MODELS.length := by
  refine ⟨rfl, ?_⟩
  induction seq generalizing c with
  | nil => exact hc
  | cons p rest ih =>
    obtain ⟨call, messages⟩ := p
    exact ih (call_ai_with_fallback call messages c).2.2
      (fallbackGo_cursor_lt call messages MODELS.length c hc)

/-- Closed instance of `cursor_always_in_range`: one failing call followed by
one succeeding call, starting from `current_model_index`. -/
theorem cursor_always_in_range_witness :
    current_model_index = 0 ∧
      runCalls [(fun _ _ => Except.error "сбой", []),
                (fun _ _ => Except.ok "готово", [])] 0 < MODELS.length :=
  cursor_always_in_range
    [(fun _ _ => Except.error "сбой", []), (fun _ _ => Except.ok "готово", [])]
    0 (by decide)

/-- C9: the fallback caller never returns the fall-through `(None, None)`
result: every run either returns the text/model pair of a successful attempt
or raises on the final failed attempt. -/
theorem fallback_never_fallthrough (call : AICall) (messages : List Msg)
    (c : Nat) :
    (∃ t m, (call_ai_with_fallback call messages c).2.1 =
      FallbackOutcome.success t m) ∨
    (∃ e, (call_ai_with_fallback call messages c).2.1 =
      FallbackOutcome.exhausted e) :=
  fallbackGo_no_fallthrough call messages MODELS.length c (by decide)

/-- Concatenating the slices at the `pyRange` start indices reconstitutes the
dropped-prefix remainder of the string. -/
theorem pyRange_join_slices (C : Nat) (hC : 0 < C) (s : List Char) :
    ∀ (d start : Nat), s.length - start ≤ d →
    ((pyRange s.length C start).map (fun i => pySlice s i (i + C))).flatten =
      s.drop start := by
  intro d
  induction d with
  | zero =>
    intro start h
    rw [pyRange, dif_neg (by omega)]
    exact (List.drop_eq_nil_of_le (by omega)).symm
  | succ d ih =>
    intro start h
    by_cases hlt : start < s.length
    · rw [pyRange, dif_pos ⟨hC, hlt⟩]
      simp only [List.map_cons, List.flatten_cons]
      rw [ih (start + C) (by omega)]
      rw [pySlice, show start + C - start = C from by omega]
      rw [← List.drop_drop]
      exact List.take_append_drop C (s.drop start)
    · rw [pyRange, dif_neg (by omega)]
      exact (List.drop_eq_nil_of_le (by omega)).symm

/-- The number of `pyRange` start indices is the number of size-`C` chunks of
the remaining `L - start` characters, rounded up. -/
theorem pyRange_length (C : Nat) (hC : 0 < C) (L : Nat) :
    ∀ (d start : Nat), L - start ≤ d →
    (pyRange L C start).length = (L - start + C - 1) / C := by
  intro d
  induction d with
  | zero =>
    intro start h
    rw [pyRange, dif_neg (by omega), show L - start = 0 from by omega]
    exact (Nat.div_eq_of_lt (by omega)).symm
  | succ d ih =>
    intro start h
    by_cases hlt : start < L
    · rw [pyRange, dif_pos ⟨hC, hlt⟩]
      simp only [List.length_cons]
      rw [ih (start + C) (by omega)]
      by_cases hge : start + C ≤ L
      · rw [show L - (start + C) + C - 1 = L - start - 1 from by omega,
          show L - start + C - 1 = (L - start - 1) + C from by omega,
          Nat.add_div_right _ hC]
      · rw [show L - (start + C) = 0 from by omega,
          Nat.div_eq_of_lt (by omega),
          show L - start + C - 1 = (L - start - 1) + C from by omega,
          Nat.add_div_right _ hC,
          Nat.div_eq_of_lt (by omega)]
    · rw [pyRange, dif_neg (by omega), show L - start = 0 from by omega]
      exact (Nat.div_eq_of_lt (by omega)).symm

/-- C3: the response chunker with chunk size 4096 produces exactly
⌈L/4096⌉ chunks, each of length at most 4096, in order, whose concatenation
is exactly the original string (no overlap, no lost characters). -/
theorem chunker_spec (assistant_message : List Char) :
    (replyChunks assistant_message).length =
      (assistant_message.length + 4096 - 1) / 4096 ∧
    (∀ ch ∈ replyChunks assistant_message, ch.length ≤ 4096) ∧
    (replyChunks assistant_message).flatten = assistant_message := by
  refine ⟨?_, ?_, ?_⟩
  · rw [replyChunks, List.length_map]
    have h := pyRange_length 4096 (by omega) assistant_message.length
      assistant_message.length 0 (by omega)
    simpa using h
  · intro ch hch
    rw [replyChunks] at hch
    obtain ⟨i, _, rfl⟩ := List.mem_map.mp hch
    rw [pySlice, show i + 4096 - i = 4096 from by omega]
    simp [List.length_take]
  · have h := pyRange_join_slices 4096 (by omega) assistant_message
      assistant_message.length 0 (by omega)
    simpa using h

/-- The lazily-created entry is present after the ensure-entry step. -/
theorem ensure_isSome (m : UserMap) (uid : Nat) :
    ((if (m uid).isSome then m else updateMap m uid []) uid).isSome = true := by
  by_cases h : (m uid).isSome
  · simp [h]
  · simp [h, updateMap]

/-- C6: after `/reset`, the history handed to the fallback caller by an
immediately following text message is exactly one user-role record holding the
new message text — the assistant reply has not been appended yet. -/
theorem reset_then_text_history (uid : Nat) (user_text : String)
    (st : BotState) :
    handle_text_history uid user_text (reset uid st).1 =
      [Msg.mk "user" user_text] := by
  simp [handle_text_history, reset, updateMap]

/-- C10: each of the four handlers leaves the calling user's identifier
present as a key of the conversation mapping — including the file handler's
unsupported-format rejection path, where the empty history is created lazily
before the format is checked. -/
theorem handlers_establish_history (call : AICall)
    (read_excel read_csv : List Nat → Except String DataFrame)
    (dfToString : DataFrame → String)
    (uid : Nat) (user_text filename : String) (file_bytes : List Nat)
    (st : BotState) :
    (((start uid st).1).conversations uid).isSome = true ∧
    (((reset uid st).1).conversations uid).isSome = true ∧
    (((handle_text call uid user_text st).1).conversations uid).isSome = true ∧
    (((handle_file call read_excel read_csv dfToString uid filename file_bytes
        st).1).conversations uid).isSome = true := by
  refine ⟨by simp [start, updateMap], by simp [reset, updateMap], ?_, ?_⟩
  · simp only [handle_text]
    split <;> simp [updateMap]
  · simp only [handle_file]
    split
    · exact ensure_isSome st.conversations uid
    · exact ensure_isSome st.conversations uid
    · split <;> simp [updateMap]

/-- C4 counterexample data: replaying the same text message (same user, same
text, same always-succeeding model) leaves a different conversation history
than processing it once — the user record and assistant reply are appended a
second time — so the text-received handler is not idempotent under
platform-side retries. -/
theorem text_handler_not_idempotent :
    (handle_text (fun _ _ => Except.ok "ответ") 7 "вопрос"
        (handle_text (fun _ _ => Except.ok "ответ") 7 "вопрос"
          initialState).1).1.conversations 7 ≠
      (handle_text (fun _ _ => Except.ok "ответ") 7 "вопрос"
        initialState).1.conversations 7 := by
  decide

/-- C4 (amended): `start` and `reset` are idempotent with respect to
platform-side retries — invoking either twice with the same event leaves the
same state as invoking it once; the file-received and text-received handlers
are not idempotent, since each invocation appends fresh records (see
`text_handler_not_idempotent`). -/
theorem start_reset_idempotent (uid : Nat) (st : BotState) :
    (start uid (start uid st).1).1 = (start uid st).1 ∧
    (reset uid (reset uid st).1).1 = (reset uid st).1 := by
  constructor <;>
  · simp only [start, reset]
    congr 1
    funext u
    by_cases h : u = uid <;> simp [updateMap, h]

/-- C5 counterexample data: for a first-time user, the unsupported-format
path does mutate state — `handle_file` creates an empty history entry for the
user before the format is even checked, so the conversation mapping changes
from having no key for the user to mapping the user to `[]`. -/
theorem file_reject_creates_entry :
    (handle_file (fun _ _ => Except.ok "ответ") (fun _ => Except.error "x1")
        (fun _ => Except.error "x2") (fun _ => "") 7 "data.txt" []
        initialState).1.conversations 7 = some [] ∧
    initialState.conversations 7 = none := ⟨rfl, rfl⟩

/-- C5 (amended): uploading a file whose name ends in an unrecognized suffix
produces the unsupported-format reply and appends no records: the user's
history records and the cursor are exactly as before; for a user with an
existing history entry the entire state is unchanged, while for a first-time
user the only mutation is the lazy creation of that user's empty history
entry. -/
theorem file_unsupported_suffix (call : AICall)
    (read_excel read_csv : List Nat → Except String DataFrame)
    (dfToString : DataFrame → String)
    (uid : Nat) (filename : String) (file_bytes : List Nat) (st : BotState)
    (h1 : pyEndswith filename ".xlsx" = false)
    (h2 : pyEndswith filename ".xls" = false)
    (h3 : pyEndswith filename ".csv" = false) :
    (handle_file call read_excel read_csv dfToString uid filename file_bytes
        st).2 = ["❌ Поддерживаются только файлы Excel (.xlsx, .xls) и CSV"] ∧
    ((handle_file call read_excel read_csv dfToString uid filename file_bytes
        st).1.conversations uid).getD [] = (st.conversations uid).getD [] ∧
    (handle_file call read_excel read_csv dfToString uid filename file_bytes
        st).1.cursor = st.cursor ∧
    ((st.conversations uid).isSome = true →
      (handle_file call read_excel read_csv dfToString uid filename file_bytes
        st).1 = st) ∧
    ((st.conversations uid).isSome = false →
      (handle_file call read_excel read_csv dfToString uid filename file_bytes
        st).1.conversations = updateMap st.conversations uid []) := by
  have hmain : handle_file call read_excel read_csv dfToString uid filename
      file_bytes st =
      ({ conversations := if (st.conversations uid).isSome
           then st.conversations else updateMap st.conversations uid [],
         cursor := st.cursor },
       ["❌ Поддерживаются только файлы Excel (.xlsx, .xls) и CSV"]) := by
    simp only [handle_file]
    rw [h1, h2, h3]
    rfl
  rw [hmain]
  refine ⟨rfl, ?_, rfl, ?_, ?_⟩
  · by_cases hex : (st.conversations uid).isSome
    · simp [hex]
    · rw [Option.not_isSome_iff_eq_none] at hex
      simp [hex, updateMap]
  · intro hex
    simp [hex]
  · intro hex
    simp [hex]

/-- Closed instance of `file_unsupported_suffix`: uploading `data.txt` as a
first-time user yields the unsupported-format reply. -/
theorem file_unsupported_suffix_witness :
    (handle_file (fun _ _ => Except.ok "ответ") (fun _ => Except.error "x1")
        (fun _ => Except.error "x2") (fun _ => "") 7 "data.txt" []
        initialState).2 =
      ["❌ Поддерживаются только файлы Excel (.xlsx, .xls) и CSV"] :=
  (file_unsupported_suffix (fun _ _ => Except.ok "ответ")
    (fun _ => Except.error "x1") (fun _ => Except.error "x2") (fun _ => "")
    7 "data.txt" [] initialState (by decide) (by decide) (by decide)).1

/-- `small` occurs contiguously inside `big`. -/
def containsSubstr (big small : String) : Prop :=
  ∃ pre post, big = pre ++ small ++ post

/-- Containment is transitive. -/
theorem contains_trans {big mid small : String}
    (h1 : containsSubstr big mid) (h2 : containsSubstr mid small) :
    containsSubstr big small := by
  obtain ⟨p, q, rfl⟩ := h1
  obtain ⟨r, s, rfl⟩ := h2
  exact ⟨p ++ r, s ++ q, by simp [String.append_assoc]⟩

/-- Every element of the joined list occurs in the accumulator-style
`String.intercalate.go`, provided it is in the remaining list or already in
the accumulator. -/
theorem intercalate_go_contains (sep c : String) :
    ∀ (as : List String) (acc : String),
      (containsSubstr acc c ∨ c ∈ as) →
      containsSubstr (String.intercalate.go acc sep as) c := by
  intro as
  induction as with
  | nil =>
    intro acc h
    rw [String.intercalate.go]
    rcases h with h | h
    · exact h
    · cases h
  | cons a as ih =>
    intro acc h
    rw [String.intercalate.go]
    apply ih
    rcases h with h | h
    · left
      obtain ⟨p, q, rfl⟩ := h
      exact ⟨p, q ++ sep ++ a, by simp [String.append_assoc]⟩
    · rcases List.mem_cons.mp h with rfl | h2
      · left
        exact ⟨acc ++ sep, "", by simp [String.append_assoc, String.append_empty]⟩
      · right
        exact h2

/-- Every column name occurs in `", ".join(columns)`. -/
theorem intercalate_contains (c : String) (l : List String) (hc : c ∈ l) :
    containsSubstr (String.intercalate ", " l) c := by
  cases l with
  | nil => cases hc
  | cons a as =>
    rw [String.intercalate]
    apply intercalate_go_contains
    rcases List.mem_cons.mp hc with rfl | h
    · exact Or.inl ⟨"", "", by simp [String.empty_append, String.append_empty]⟩
    · exact Or.inr h

/-- C7: the rendered preview contains the filename, the row count (with the
"строк" label), the column count (with the "колонок" label), the joined list
of all column names — hence each individual column name — and the full
untruncated table dump. -/
theorem data_preview_contains (filename : String) (df : DataFrame)
    (dump : String) :
    containsSubstr (data_preview filename df dump) filename ∧
    containsSubstr (data_preview filename df dump)
      (toString df.rows.length ++ " строк") ∧
    containsSubstr (data_preview filename df dump)
      (toString df.columns.length ++ " колонок") ∧
    containsSubstr (data_preview filename df dump)
      (String.intercalate ", " df.columns) ∧
    (∀ c ∈ df.columns, containsSubstr (data_preview filename df dump) c) ∧
    containsSubstr (data_preview filename df dump) dump := by
  have h4 : (" строк, " : String) = " строк" ++ ", " := by decide
  have h5 : (" колонок\n\n" : String) = " колонок" ++ "\n\n" := by decide
  have hI : containsSubstr (data_preview filename df dump)
      (String.intercalate ", " df.columns) := by
    refine ⟨"Файл: " ++ filename ++ "\n\n" ++ "Размер: " ++
      toString df.rows.length ++ " строк, " ++ toString df.columns.length ++
      " колонок\n\n" ++ "Колонки: ", "\n\n" ++ "Данные:\n" ++ dump, ?_⟩
    simp [data_preview, String.append_assoc]
  refine ⟨?_, ?_, ?_, hI, ?_, ?_⟩
  · refine ⟨"Файл: ", "\n\n" ++ "Размер: " ++ toString df.rows.length ++
      " строк, " ++ toString df.columns.length ++ " колонок\n\n" ++
      "Колонки: " ++ String.intercalate ", " df.columns ++ "\n\n" ++
      "Данные:\n" ++ dump, ?_⟩
    simp [data_preview, String.append_assoc]
  · refine ⟨"Файл: " ++ filename ++ "\n\n" ++ "Размер: ",
      ", " ++ toString df.columns.length ++ " колонок\n\n" ++ "Колонки: " ++
      String.intercalate ", " df.columns ++ "\n\n" ++ "Данные:\n" ++ dump, ?_⟩
    rw [data_preview, h4]
    simp only [String.append_assoc]
  · refine ⟨"Файл: " ++ filename ++ "\n\n" ++ "Размер: " ++
      toString df.rows.length ++ " строк, ",
      "\n\n" ++ "Колонки: " ++ String.intercalate ", " df.columns ++ "\n\n" ++
      "Данные:\n" ++ dump, ?_⟩
    rw [data_preview, h5]
    simp only [String.append_assoc]
  · intro c hc
    exact contains_trans hI (intercalate_contains c df.columns hc)
  · refine ⟨"Файл: " ++ filename ++ "\n\n" ++ "Размер: " ++
      toString df.rows.length ++ " строк, " ++ toString df.columns.length ++
      " колонок\n\n" ++ "Колонки: " ++ String.intercalate ", " df.columns ++
      "\n\n" ++ "Данные:\n", "", ?_⟩
    simp [data_preview, String.append_assoc, String.append_empty]

/-- Closed instance of `data_preview_contains`: a 10-row, 3-column
`data.xlsx` yields a preview containing the row count with its label and all
three column names. -/
theorem data_preview_contains_witness :
    containsSubstr
      (data_preview "data.xlsx"
        (DataFrame.mk ["товар", "цена", "остаток"]
          (List.replicate 10 ([] : List String))) "дамп")
      (toString (DataFrame.mk ["товар", "цена", "остаток"]
          (List.replicate 10 ([] : List String))).rows.length ++ " строк") ∧
    containsSubstr
      (data_preview "data.xlsx"
        (DataFrame.mk ["товар", "цена", "остаток"]
          (List.replicate 10 ([] : List String))) "дамп") "товар" ∧
    containsSubstr
      (data_preview "data.xlsx"
        (DataFrame.mk ["товар", "цена", "остаток"]
          (List.replicate 10 ([] : List String))) "дамп") "цена" ∧
    containsSubstr
      (data_preview "data.xlsx"
        (DataFrame.mk ["товар", "цена", "остаток"]
          (List.replicate 10 ([] : List String))) "дамп") "остаток" :=
  ⟨(data_preview_contains "data.xlsx"
      (DataFrame.mk ["товар", "цена", "остаток"]
        (List.replicate 10 ([] : List String))) "дамп").2.1,
   (data_preview_contains "data.xlsx"
      (DataFrame.mk ["товар", "цена", "остаток"]
        (List.replicate 10 ([] : List String))) "дамп").2.2.2.2.1 "товар"
     (by simp),
   (data_preview_contains "data.xlsx"
      (DataFrame.mk ["товар", "цена", "остаток"]
        (List.replicate 10 ([] : List String))) "дамп").2.2.2.2.1 "цена"
     (by simp),
   (data_preview_contains "data.xlsx"
      (DataFrame.mk ["товар", "цена", "остаток"]
        (List.replicate 10 ([] : List String))) "дамп").2.2.2.2.1 "остаток"
     (by simp)⟩
